import Mathlib

/-!
Verification of the nexus-agent delivery pipeline.

Shallow embedding of the Go sources:
* `internal/crypto/encrypt.go` — HKDF-SHA256 daily key derivation and the
  AES-GCM envelope construction (`deriveKeyForDate`, `EncryptPayload`);
* `internal/sender/sender.go` — the retrying delivery client
  (`Send`, `doSend`);
* `internal/queue` — the bounded persistent FIFO store
  (`Enqueue`, `Dequeue`, `Remove`, `IncrementAttempts`);
* `cmd/agent/main.go` — the background drain loop (`processQueue`).

Bytes are modelled as `Nat` values below 256, byte strings as `List Nat`.
SHA-256, HMAC and HKDF are implemented in full so that the key-derivation
contract is checkable against published test vectors.  The AES-GCM sealing
step itself is a parameter of the model (no claim is about the block cipher);
randomness (the nonce) and wall-clock time (the key date) are explicit
arguments, mirroring the effect points of the Go code.
-/

set_option maxRecDepth 100000

namespace NexusAgent

/-! ## SHA-256 (FIPS 180-4), over byte lists -/

/-- Truncation to a 32-bit word. -/
def w32 (n : Nat) : Nat := n % 4294967296

/-- Right rotation of a 32-bit word by `k` bits. -/
def rotr (k x : Nat) : Nat := w32 ((x >>> k) ||| (x <<< (32 - k)))

/-- SHA-256 `Ch` function. -/
def ch (x y z : Nat) : Nat := (x &&& y) ^^^ ((x ^^^ 4294967295) &&& z)

/-- SHA-256 `Maj` function. -/
def maj (x y z : Nat) : Nat := (x &&& y) ^^^ (x &&& z) ^^^ (y &&& z)

/-- SHA-256 big sigma-0. -/
def bigSigma0 (x : Nat) : Nat := rotr 2 x ^^^ rotr 13 x ^^^ rotr 22 x

/-- SHA-256 big sigma-1. -/
def bigSigma1 (x : Nat) : Nat := rotr 6 x ^^^ rotr 11 x ^^^ rotr 25 x

/-- SHA-256 small sigma-0. -/
def smallSigma0 (x : Nat) : Nat := rotr 7 x ^^^ rotr 18 x ^^^ (x >>> 3)

/-- SHA-256 small sigma-1. -/
def smallSigma1 (x : Nat) : Nat := rotr 17 x ^^^ rotr 19 x ^^^ (x >>> 10)

/-- The 64 SHA-256 round constants (FIPS 180-4 §4.2.2, here in decimal). -/
def K64 : List Nat :=
  [1116352408, 1899447441, 3049323471, 3921009573, 961987163, 1508970993,
   2453635748, 2870763221, 3624381080, 310598401, 607225278, 1426881987,
   1925078388, 2162078206, 2614888103, 3248222580, 3835390401, 4022224774,
   264347078, 604807628, 770255983, 1249150122, 1555081692, 1996064986,
   2554220882, 2821834349, 2952996808, 3210313671, 3336571891, 3584528711,
   113926993, 338241895, 666307205, 773529912, 1294757372, 1396182291,
   1695183700, 1986661051, 2177026350, 2456956037, 2730485921, 2820302411,
   3259730800, 3345764771, 3516065817, 3600352804, 4094571909, 275423344,
   430227734, 506948616, 659060556, 883997877, 958139571, 1322822218,
   1537002063, 1747873779, 1955562222, 2024104815, 2227730452, 2361852424,
   2428436474, 2756734187, 3204031479, 3329325298]

/-- The SHA-256 chaining value: eight 32-bit words. -/
structure Digest where
  h0 : Nat
  h1 : Nat
  h2 : Nat
  h3 : Nat
  h4 : Nat
  h5 : Nat
  h6 : Nat
  h7 : Nat
deriving DecidableEq

/-- The SHA-256 initial hash value (FIPS 180-4 §5.3.3, here in decimal). -/
def sha256Init : Digest :=
  ⟨1779033703, 3144134277, 1013904242, 2773480762,
   1359893119, 2600822924, 528734635, 1541459225⟩

/-- Working registers a–h of the compression function. -/
structure Regs where
  a : Nat
  b : Nat
  c : Nat
  d : Nat
  e : Nat
  f : Nat
  g : Nat
  h : Nat

/-- One round of the SHA-256 compression function. -/
def compressRound (k w : Nat) (r : Regs) : Regs :=
  let t1 := w32 (r.h + bigSigma1 r.e + ch r.e r.f r.g + k + w)
  let t2 := w32 (bigSigma0 r.a + maj r.a r.b r.c)
  ⟨w32 (t1 + t2), r.a, r.b, r.c, w32 (r.d + t1), r.e, r.f, r.g⟩

/-- Big-endian 32-bit words from a byte list (groups of four). -/
def toWords : List Nat → List Nat
  | b0 :: b1 :: b2 :: b3 :: rest => (((b0 * 256 + b1) * 256 + b2) * 256 + b3) :: toWords rest
  | _ => []

/-- Extend the 16-word message schedule by `n` further words. -/
def extendW (ws : Array Nat) : Nat → Array Nat
  | 0 => ws
  | n + 1 =>
    let i := ws.size
    let nw := w32 (smallSigma1 (ws.getD (i - 2) 0) + ws.getD (i - 7) 0 +
                   smallSigma0 (ws.getD (i - 15) 0) + ws.getD (i - 16) 0)
    extendW (ws.push nw) n

/-- Process one 64-byte block, updating the chaining value. -/
def processBlock (dg : Digest) (block : List Nat) : Digest :=
  let ws := extendW (Array.mk (toWords block)) 48
  let r0 : Regs := ⟨dg.h0, dg.h1, dg.h2, dg.h3, dg.h4, dg.h5, dg.h6, dg.h7⟩
  let rf := (List.range 64).foldl (fun r i => compressRound (K64.getD i 0) (ws.getD i 0) r) r0
  ⟨w32 (dg.h0 + rf.a), w32 (dg.h1 + rf.b), w32 (dg.h2 + rf.c), w32 (dg.h3 + rf.d),
   w32 (dg.h4 + rf.e), w32 (dg.h5 + rf.f), w32 (dg.h6 + rf.g), w32 (dg.h7 + rf.h)⟩

/-- A 32-bit word as four big-endian bytes. -/
def wordBytes (n : Nat) : List Nat :=
  [n / 16777216 % 256, n / 65536 % 256, n / 256 % 256, n % 256]

/-- The digest serialized as 32 bytes. -/
def digestBytes (d : Digest) : List Nat :=
  wordBytes d.h0 ++ wordBytes d.h1 ++ wordBytes d.h2 ++ wordBytes d.h3 ++
  wordBytes d.h4 ++ wordBytes d.h5 ++ wordBytes d.h6 ++ wordBytes d.h7

/-- A 64-bit value as eight big-endian bytes. -/
def be64 (n : Nat) : List Nat :=
  [n / 72057594037927936 % 256, n / 281474976710656 % 256, n / 1099511627776 % 256,
   n / 4294967296 % 256, n / 16777216 % 256, n / 65536 % 256, n / 256 % 256, n % 256]

/-- SHA-256 padding: 0x80, zeros to 56 mod 64, then the bit length. -/
def sha256Pad (msg : List Nat) : List Nat :=
  msg ++ 128 :: List.replicate ((119 - msg.length % 64) % 64) 0 ++ be64 (8 * msg.length)

/-- Split a byte list into 64-byte chunks (fuel-driven for structural recursion). -/
def chunks64Aux : Nat → List Nat → List (List Nat)
  | 0, _ => []
  | _, [] => []
  | fuel + 1, l => l.take 64 :: chunks64Aux fuel (l.drop 64)

/-- Split a byte list into 64-byte chunks. -/
def chunks64 (l : List Nat) : List (List Nat) := chunks64Aux l.length l

/-- SHA-256 of a byte list. -/
def sha256 (msg : List Nat) : List Nat :=
  digestBytes ((chunks64 (sha256Pad msg)).foldl processBlock sha256Init)

/-- A SHA-256 digest is always exactly 32 bytes. -/
theorem sha256_length (msg : List Nat) : (sha256 msg).length = 32 := by
  simp [sha256, digestBytes, wordBytes]

/-- FIPS 180-4 test vector: SHA-256 of the empty message. -/
theorem sha256_empty_vector :
    sha256 [] =
      [0xe3, 0xb0, 0xc4, 0x42, 0x98, 0xfc, 0x1c, 0x14, 0x9a, 0xfb, 0xf4, 0xc8,
       0x99, 0x6f, 0xb9, 0x24, 0x27, 0xae, 0x41, 0xe4, 0x64, 0x9b, 0x93, 0x4c,
       0xa4, 0x95, 0x99, 0x1b, 0x78, 0x52, 0xb8, 0x55] := by decide

/-- FIPS 180-4 test vector: SHA-256 of the three bytes "abc". -/
theorem sha256_abc_vector :
    sha256 [0x61, 0x62, 0x63] =
      [0xba, 0x78, 0x16, 0xbf, 0x8f, 0x01, 0xcf, 0xea, 0x41, 0x41, 0x40, 0xde,
       0x5d, 0xae, 0x22, 0x23, 0xb0, 0x03, 0x61, 0xa3, 0x96, 0x17, 0x7a, 0x9c,
       0xb4, 0x10, 0xff, 0x61, 0xf2, 0x00, 0x15, 0xad] := by decide

/-! ## HMAC-SHA256 (RFC 2104) and HKDF (RFC 5869)

`encrypt.go` calls `hkdf.New(sha256.New, masterSecret, nil, info)` from
`golang.org/x/crypto/hkdf`; that library implements RFC 5869 (a nil salt is
replaced by a hash-length string of zero bytes) and is embedded here in full. -/

/-- HMAC with SHA-256 (block size 64 bytes). -/
def hmacSha256 (key msg : List Nat) : List Nat :=
  let k0 := if 64 < key.length then sha256 key else key
  let kp := k0 ++ List.replicate (64 - k0.length) 0
  sha256 (kp.map (fun b => b ^^^ 0x5c) ++ sha256 (kp.map (fun b => b ^^^ 0x36) ++ msg))

/-- An HMAC-SHA256 tag is always exactly 32 bytes. -/
theorem hmacSha256_length (key msg : List Nat) : (hmacSha256 key msg).length = 32 :=
  sha256_length _

/-- RFC 4231 test case 1: HMAC-SHA256 with a 20-byte 0x0b key over "Hi There". -/
theorem hmacSha256_rfc4231_vector :
    hmacSha256 (List.replicate 20 0x0b)
      [0x48, 0x69, 0x20, 0x54, 0x68, 0x65, 0x72, 0x65] =
      [0xb0, 0x34, 0x4c, 0x61, 0xd8, 0xdb, 0x38, 0x53, 0x5c, 0xa8, 0xaf, 0xce,
       0xaf, 0x0b, 0xf1, 0x2b, 0x88, 0x1d, 0xc2, 0x00, 0xc9, 0x83, 0x3d, 0xa7,
       0x26, 0xe9, 0x37, 0x6c, 0x2e, 0x32, 0xcf, 0xf7] := by decide

/-- HKDF-Extract: `PRK = HMAC(salt, IKM)`; an absent salt is 32 zero bytes,
exactly as `golang.org/x/crypto/hkdf` substitutes for a nil salt. -/
def hkdfExtract (salt ikm : List Nat) : List Nat :=
  hmacSha256 (if salt.isEmpty then List.replicate 32 0 else salt) ikm

/-- HKDF-Expand block stream: `T(i) = HMAC(PRK, T(i-1) || info || byte(i))`. -/
def hkdfExpandAux (prk info prev : List Nat) (counter : Nat) : Nat → List Nat
  | 0 => []
  | n + 1 =>
    let t := hmacSha256 prk (prev ++ info ++ [counter % 256])
    t ++ hkdfExpandAux prk info t (counter + 1) n

/-- HKDF-Expand: the first `len` bytes of the block stream. -/
def hkdfExpand (prk info : List Nat) (len : Nat) : List Nat :=
  (hkdfExpandAux prk info [] 1 ((len + 31) / 32)).take len

/-- Full HKDF over SHA-256: extract then expand. -/
def hkdf (ikm salt info : List Nat) (len : Nat) : List Nat :=
  hkdfExpand (hkdfExtract salt ikm) info len

theorem hkdfExpandAux_length (prk info : List Nat) :
    ∀ (n : Nat) (prev : List Nat) (counter : Nat),
      (hkdfExpandAux prk info prev counter n).length = 32 * n := by
  intro n
  induction n with
  | zero => intro prev counter; rfl
  | succ m ih =>
    intro prev counter
    simp only [hkdfExpandAux, List.length_append, hmacSha256_length, ih]
    ring

/-- HKDF output has exactly the requested length. -/
theorem hkdf_length (ikm salt info : List Nat) (len : Nat) :
    (hkdf ikm salt info len).length = len := by
  simp only [hkdf, hkdfExpand, List.length_take, hkdfExpandAux_length]
  omega

/-- RFC 5869 test case 3: HKDF-SHA256 with an absent salt and empty info. -/
theorem hkdf_rfc5869_vector :
    hkdf (List.replicate 22 0x0b) [] [] 42 =
      [0x8d, 0xa4, 0xe7, 0x75, 0xa5, 0x63, 0xc1, 0x8f, 0x71, 0x5f, 0x80, 0x2a,
       0x06, 0x3c, 0x5a, 0x31, 0xb8, 0xa1, 0x1f, 0x5c, 0x5e, 0xe1, 0x87, 0x9e,
       0xc3, 0x45, 0x4e, 0x5f, 0x3c, 0x73, 0x8d, 0x2d, 0x9d, 0x20, 0x13, 0x95,
       0xfa, 0xa4, 0xb6, 0x1a, 0x96, 0xc8] := by decide

/-! ## Strings as UTF-8 bytes -/

/-- The UTF-8 encoding of one character. -/
def utf8Bytes (c : Char) : List Nat :=
  let n := c.toNat
  if n < 0x80 then [n]
  else if n < 0x800 then
    [0xC0 ||| (n >>> 6), 0x80 ||| (n &&& 0x3F)]
  else if n < 0x10000 then
    [0xE0 ||| (n >>> 12), 0x80 ||| ((n >>> 6) &&& 0x3F), 0x80 ||| (n &&& 0x3F)]
  else
    [0xF0 ||| (n >>> 18), 0x80 ||| ((n >>> 12) &&& 0x3F),
     0x80 ||| ((n >>> 6) &&& 0x3F), 0x80 ||| (n &&& 0x3F)]

/-- The UTF-8 bytes of a string, as `Nat` values — Go's `[]byte(s)`. -/
def strBytes (s : String) : List Nat := (s.data.map utf8Bytes).flatten

/-! ## Daily key derivation (`deriveKeyForDate`, encrypt.go lines 96–108) -/

/-- Function `deriveKeyForDate` from encrypt.go: HKDF with SHA-256, the master secret
as input keying material, no salt, and the info string
`"nexus-enigma-" ++ appKey ++ "-" ++ date`, reading `KeyLength = 32` bytes. -/
def deriveKeyForDate (masterSecret : List Nat) (appKey date : String) : List Nat :=
  hkdf masterSecret [] (strBytes ("nexus-enigma-" ++ appKey ++ "-" ++ date)) 32

/-- The fixed domain-separation marker of the derivation context string. -/
def domainSeparation : String := "nexus-enigma-"

/-- The derived key as the specification words it: the 32-byte output of HKDF
over SHA-256 with the long-term secret as input keying material, no salt, and
the info string formed from the fixed domain-separation marker, the tenant
key, and the date string. -/
def specDerivedKey (secret : List Nat) (tenantKey date : String) : List Nat :=
  hkdf secret [] (strBytes (domainSeparation ++ tenantKey ++ "-" ++ date)) 32

/-! ## Base64 (standard alphabet with padding, as Go `base64.StdEncoding`)

`encrypt.go` decodes the master secret with `base64.StdEncoding.DecodeString`
and encodes nonce and ciphertext with `EncodeToString`.  Go's decoder skips
carriage returns and newlines, requires the remaining length to be a multiple
of four, allows `=` padding only in the final quantum, and ignores unused
trailing bits of the last symbol. -/

/-- The value of one base64 symbol of the standard alphabet. -/
def b64Index (c : Char) : Option Nat :=
  if 'A' ≤ c ∧ c ≤ 'Z' then some (c.toNat - 65)
  else if 'a' ≤ c ∧ c ≤ 'z' then some (c.toNat - 71)
  else if '0' ≤ c ∧ c ≤ '9' then some (c.toNat + 4)
  else if c = '+' then some 62
  else if c = '/' then some 63
  else none

/-- Decode base64 four characters at a time; padding only in the last quantum. -/
def decodeB64Aux : List Char → Option (List Nat)
  | [] => some []
  | c0 :: c1 :: c2 :: c3 :: rest =>
    match b64Index c0, b64Index c1 with
    | some v0, some v1 =>
      if c2 = '=' then
        if c3 = '=' ∧ rest = [] then some [v0 * 4 + v1 / 16] else none
      else
        match b64Index c2 with
        | some v2 =>
          if c3 = '=' then
            if rest = [] then some [v0 * 4 + v1 / 16, v1 % 16 * 16 + v2 / 4] else none
          else
            match b64Index c3 with
            | some v3 =>
              match decodeB64Aux rest with
              | some bs =>
                some ((v0 * 4 + v1 / 16) :: (v1 % 16 * 16 + v2 / 4) :: (v2 % 4 * 64 + v3) :: bs)
              | none => none
            | none => none
        | none => none
    | _, _ => none
  | _ => none

/-- Go `base64.StdEncoding.DecodeString`: strip CR/LF, then decode strictly. -/
def decodeBase64 (s : String) : Option (List Nat) :=
  decodeB64Aux (s.data.filter (fun c => c ≠ '\r' ∧ c ≠ '\n'))

/-- The standard base64 alphabet. -/
def b64Alphabet : String :=
  "ABCDEFGHIJKLMNOPQRSTUVWXYZabcdefghijklmnopqrstuvwxyz0123456789+/"

/-- The base64 symbol for a 6-bit value. -/
def b64Char (n : Nat) : Char := b64Alphabet.data.getD n 'A'

/-- Encode bytes three at a time, padding the final quantum with `=`. -/
def encodeB64Aux : List Nat → List Char
  | b0 :: b1 :: b2 :: rest =>
    b64Char (b0 / 4) :: b64Char (b0 % 4 * 16 + b1 / 16) ::
      b64Char (b1 % 16 * 4 + b2 / 64) :: b64Char (b2 % 64) :: encodeB64Aux rest
  | [b0, b1] => [b64Char (b0 / 4), b64Char (b0 % 4 * 16 + b1 / 16), b64Char (b1 % 16 * 4), '=']
  | [b0] => [b64Char (b0 / 4), b64Char (b0 % 4 * 16), '=', '=']
  | [] => []

/-- Go `base64.StdEncoding.EncodeToString`. -/
def encodeBase64 (bs : List Nat) : String := String.mk (encodeB64Aux bs)

/-- Base64 sanity vectors: "Man" encodes to "TWFu" and decodes back; padding
round-trips; an illegal symbol is rejected. -/
theorem base64_vectors :
    encodeBase64 [77, 97, 110] = "TWFu" ∧
    decodeBase64 "TWFu" = some [77, 97, 110] ∧
    encodeBase64 [1, 2] = "AQI=" ∧
    decodeBase64 "AQI=" = some [1, 2] ∧
    decodeBase64 "!" = none := by decide

/-! ## The encryption envelope (`EncryptPayload`, encrypt.go lines 36–92)

The payload is modelled by its canonical JSON serialization (a `String`):
`json.Marshal` cannot fail on data that was itself decoded from JSON, which
is the only way payloads enter the agent.  The AES-GCM sealing step is a
parameter `gcmSeal key nonce plaintext`, and the two effect points of the Go
function —
the random nonce and `time.Now().UTC().Format("2006-01-02")` — are the
explicit arguments `nonce` and `keyDate`. -/

/-- The wire envelope `EncryptedPayload` from encrypt.go. -/
structure EncryptedPayload where
  Encrypted : Bool
  KeyDate : String
  SecretVersion : Nat
  Nonce : String
  Data : String
deriving DecidableEq

/-- Function `EncryptPayload` from encrypt.go: decode the base64 master secret (failing
on invalid base64), derive the daily key, seal the serialized payload under a
fresh nonce, and build the envelope with `secretVersion = 1`. -/
def EncryptPayload (gcmSeal : List Nat → List Nat → List Nat → List Nat)
    (nonce : List Nat) (keyDate : String) (data : String)
    (masterSecretB64 : String) (appKey : String) : Except String EncryptedPayload :=
  match decodeBase64 masterSecretB64 with
  | none => .error "failed to decode master secret"
  | some masterSecret =>
    let key := deriveKeyForDate masterSecret appKey keyDate
    let plaintext := strBytes data
    let ciphertext := gcmSeal key nonce plaintext
    .ok ⟨true, keyDate, 1, encodeBase64 nonce, encodeBase64 ciphertext⟩

/-! ## Claims C1 and C9 -/

/-- Claim C1: for every long-term secret, tenant key and date, the derived
encryption key is the 32-byte output of HKDF over SHA-256 with the secret as
input keying material, no salt, and the info string formed from the fixed
domain-separation marker, the tenant key and the date; the derivation is a
pure function of these three inputs (it is a Lean function), so repeated
calls with the same inputs yield byte-identical keys. -/
theorem deriveKeyForDate_correct (secret : List Nat) (tenantKey date : String) :
    deriveKeyForDate secret tenantKey date = specDerivedKey secret tenantKey date ∧
    (deriveKeyForDate secret tenantKey date).length = 32 ∧
    deriveKeyForDate secret tenantKey date = deriveKeyForDate secret tenantKey date :=
  ⟨rfl, hkdf_length _ _ _ _, rfl⟩

/-- Claim C9: if the stored long-term secret is not valid base64 text, the
call fails with the decode error before any key derivation or encryption is
performed — the result is the same for every sealing function, nonce, date and
payload, so no derived key or ciphertext enters into it. -/
theorem EncryptPayload_requires_base64
    (gcmSeal : List Nat → List Nat → List Nat → List Nat)
    (nonce : List Nat) (keyDate data masterSecretB64 appKey : String)
    (h : decodeBase64 masterSecretB64 = none) :
    EncryptPayload gcmSeal nonce keyDate data masterSecretB64 appKey =
      .error "failed to decode master secret" := by
  simp [EncryptPayload, h]

/-- A secret that is not base64 ("!") makes `EncryptPayload` fail with the
decode error. -/
theorem EncryptPayload_requires_base64_witness :
    decodeBase64 "!" = none ∧
    EncryptPayload (fun _ _ p => p) [] "2024-01-01" "payload" "!" "k1" =
      .error "failed to decode master secret" :=
  ⟨by decide,
   EncryptPayload_requires_base64 (fun _ _ p => p) [] "2024-01-01" "payload" "!" "k1"
     (by decide)⟩

/-! ## The delivery client (`Send` / `doSend`, sender.go)

The network is modelled by an oracle `net : Nat → HttpOutcome` giving the
transport result of each numbered attempt; `retryAttempts` stands for
`config.Nexus.RetryAttempts`.  `Send` returns the Go `SendResult` together
with the list of request bodies actually posted, one per HTTP attempt, so
the attempt count and the bytes on the wire are both visible to theorems.
The fixed inter-attempt sleep has no bearing on any outcome and is dropped. -/

/-- One app entry of the agent configuration (`config.AppConfig`): display
name, app key, and base64 master secret. -/
structure AppConfig where
  Name : String
  AppKey : String
  MasterSecret : String
deriving DecidableEq

/-- The credential state of `config.Config`: the static `Apps` list from the
config file and the `syncedApps` table maintained by the sync client (a Go
map keyed by app key, modelled as an association list).  The remaining
config fields (ports, URLs, timeouts) play no part in any claim; the retry
ceiling `Nexus.RetryAttempts` is passed to `Send` explicitly. -/
structure Config where
  Apps : List AppConfig
  syncedApps : List (String × AppConfig)
deriving DecidableEq

/-- Function `GetAppByKey` from the config package (staged in handler.go
after the separator, lines 260–275): look in the synced-apps table first,
then fall back to the first static app with a matching key, else none. -/
def Config.GetAppByKey (c : Config) (appKey : String) : Option AppConfig :=
  match c.syncedApps.lookup appKey with
  | some app => some app
  | none => c.Apps.find? (fun a => a.AppKey = appKey)

/-- Two-tier lookup sanity: a synced entry shadows a static one with the
same key, a key only in the static list is still found, and a key in
neither tier resolves to none. -/
theorem GetAppByKey_tiers :
    (Config.GetAppByKey ⟨[⟨"stale", "k1", "s"⟩], [("k1", ⟨"fresh", "k1", "f"⟩)]⟩ "k1" =
      some ⟨"fresh", "k1", "f"⟩) ∧
    (Config.GetAppByKey ⟨[⟨"static", "k2", "s"⟩], [("k1", ⟨"fresh", "k1", "f"⟩)]⟩ "k2" =
      some ⟨"static", "k2", "s"⟩) ∧
    (Config.GetAppByKey ⟨[⟨"static", "k2", "s"⟩], [("k1", ⟨"fresh", "k1", "f"⟩)]⟩ "k3" =
      none) := by
  refine ⟨by decide, by decide, by decide⟩

/-- The `SendResult` structure from sender.go. -/
structure SendResult where
  Success : Bool
  Message : String
  Retry : Bool
deriving DecidableEq

/-- The transport-level result of one HTTP attempt: request construction
failure, connection/transport failure (no response), or a response with its
status code and body. -/
inductive HttpOutcome where
  | requestError (msg : String)
  | transportError (msg : String)
  | response (status : Nat) (body : String)
deriving DecidableEq

/-- Function `doSend` from sender.go (lines 99–153), as a function of the transport
result: 2xx ⇒ success; `client.Do` error ⇒ retryable failure; status ≥ 500 ⇒
retryable failure; any other status ⇒ non-retryable failure.  A request
construction failure is non-retryable. -/
def doSend (appKey body : String) (net : HttpOutcome) : SendResult :=
  match net with
  | .requestError msg => ⟨false, "failed to create request: " ++ msg, false⟩
  | .transportError msg => ⟨false, "request failed: " ++ msg, true⟩
  | .response status respBody =>
    if 200 ≤ status ∧ status < 300 then
      ⟨true, "data sent successfully", false⟩
    else if 500 ≤ status then
      ⟨false, "server error " ++ toString status ++ ": " ++ respBody, true⟩
    else
      ⟨false, "client error " ++ toString status ++ ": " ++ respBody, false⟩

/-- Minimal JSON string escaping (quotes and backslashes); the envelope
fields hold base64 text and a date, which escape to themselves. -/
def jsonEscape (s : String) : String :=
  String.join (s.data.map (fun c =>
    if c = '"' then "\\\"" else if c = '\\' then "\\\\" else String.singleton c))

/-- Go `json.Marshal` of the envelope struct: its five fields in declaration
order, as sender.go posts it. -/
def encodeEnvelope (p : EncryptedPayload) : String :=
  "\x7b\"encrypted\":" ++ (if p.Encrypted then "true" else "false") ++
  ",\"keyDate\":\"" ++ jsonEscape p.KeyDate ++
  "\",\"secretVersion\":" ++ toString p.SecretVersion ++
  ",\"nonce\":\"" ++ jsonEscape p.Nonce ++
  "\",\"data\":\"" ++ jsonEscape p.Data ++ "\"\x7d"

/-- The retry loop of `Send` (sender.go lines 70–95): attempt numbers count
up from `attempt` while `fuel` attempts remain; stop on success or on a
non-retryable failure, propagate the last error message when the ceiling is
exhausted.  Returns the result and the bodies posted, one per attempt. -/
def sendLoop (net : Nat → HttpOutcome) (appKey body lastErr : String)
    (attempt : Nat) : Nat → SendResult × List String
  | 0 => (⟨false, "all retries failed: " ++ lastErr, true⟩, [])
  | fuel + 1 =>
    let result := doSend appKey body (net attempt)
    if result.Success then (result, [body])
    else if result.Retry = false then (result, [body])
    else
      let r := sendLoop net appKey body result.Message (attempt + 1) fuel
      (r.1, body :: r.2)

/-- Function `Send` from sender.go (lines 39–96): resolve the app key, encrypt, build
the request body once, then run the retry loop from attempt 1 up to the
ceiling. -/
def Send (retryAttempts : Nat) (cfg : Config)
    (gcmSeal : List Nat → List Nat → List Nat → List Nat)
    (nonce : List Nat) (keyDate : String) (net : Nat → HttpOutcome)
    (appKey : String) (data : String) : SendResult × List String :=
  match cfg.GetAppByKey appKey with
  | none => (⟨false, "unknown app_key: " ++ appKey, false⟩, [])
  | some app =>
    match EncryptPayload gcmSeal nonce keyDate data app.MasterSecret appKey with
    | .error e => (⟨false, "encryption failed: " ++ e, false⟩, [])
    | .ok payload =>
      let bodyJSON := encodeEnvelope payload
      sendLoop net appKey bodyJSON "" 1 retryAttempts

/-! ### Retry-loop lemmas -/

theorem sendLoop_trace_length (net : Nat → HttpOutcome) (appKey body : String) :
    ∀ (fuel attempt : Nat) (lastErr : String),
      (sendLoop net appKey body lastErr attempt fuel).2.length ≤ fuel := by
  intro fuel
  induction fuel with
  | zero => intro attempt lastErr; simp [sendLoop]
  | succ m ih =>
    intro attempt lastErr
    simp only [sendLoop]
    split
    · simp
    · split
      · simp
      · simpa using Nat.succ_le_succ (ih (attempt + 1) _)

theorem sendLoop_prefix_retryable (net : Nat → HttpOutcome) (appKey body : String) :
    ∀ (fuel attempt : Nat) (lastErr : String) (j : Nat),
      j + 1 < (sendLoop net appKey body lastErr attempt fuel).2.length →
      (doSend appKey body (net (attempt + j))).Success = false ∧
      (doSend appKey body (net (attempt + j))).Retry = true := by
  intro fuel
  induction fuel with
  | zero => intro attempt lastErr j h; simp [sendLoop] at h
  | succ m ih =>
    intro attempt lastErr j h
    simp only [sendLoop] at h
    by_cases hs : (doSend appKey body (net attempt)).Success
    · simp [hs] at h
    · by_cases hr : (doSend appKey body (net attempt)).Retry = false
      · simp [hs, hr] at h
      · simp [hs, hr] at h
        cases j with
        | zero =>
          simpa [hs] using Bool.not_eq_false _ |>.mp hr
        | succ j' =>
          have := ih (attempt + 1) (doSend appKey body (net attempt)).Message j' (by omega)
          simpa [Nat.add_assoc, Nat.add_comm 1 j'] using this

theorem sendLoop_stop_reason (net : Nat → HttpOutcome) (appKey body : String) :
    ∀ (fuel attempt : Nat) (lastErr : String),
      (sendLoop net appKey body lastErr attempt fuel).2.length < fuel →
      1 ≤ (sendLoop net appKey body lastErr attempt fuel).2.length ∧
      ((doSend appKey body (net (attempt + (sendLoop net appKey body lastErr attempt fuel).2.length - 1))).Success = true ∨
       (doSend appKey body (net (attempt + (sendLoop net appKey body lastErr attempt fuel).2.length - 1))).Retry = false) := by
  intro fuel
  induction fuel with
  | zero => intro attempt lastErr h; simp [sendLoop] at h
  | succ m ih =>
    intro attempt lastErr h
    simp only [sendLoop] at h ⊢
    by_cases hs : (doSend appKey body (net attempt)).Success
    · simp [hs]
    · by_cases hr : (doSend appKey body (net attempt)).Retry = false
      · simp [hs, hr]
      · simp only [hs, hr, if_neg, if_false, Bool.false_eq_true, reduceIte] at h ⊢
        have hlt : (sendLoop net appKey body (doSend appKey body (net attempt)).Message (attempt + 1) m).2.length < m := by
          simpa using Nat.lt_of_succ_lt_succ (by simpa using h)
        have := ih (attempt + 1) (doSend appKey body (net attempt)).Message hlt
        refine ⟨by simp, ?_⟩
        have harith :
            attempt + 1 + (sendLoop net appKey body (doSend appKey body (net attempt)).Message (attempt + 1) m).2.length - 1 =
            attempt + ((sendLoop net appKey body (doSend appKey body (net attempt)).Message (attempt + 1) m).2.length + 1) - 1 := by
          omega
        simpa [harith] using this.2

theorem sendLoop_exhaust (net : Nat → HttpOutcome) (appKey body : String) :
    ∀ (fuel attempt : Nat) (lastErr : String),
      (∀ i, attempt ≤ i → i < attempt + fuel →
        (doSend appKey body (net i)).Success = false ∧
        (doSend appKey body (net i)).Retry = true) →
      (sendLoop net appKey body lastErr attempt fuel).1.Success = false ∧
      (sendLoop net appKey body lastErr attempt fuel).1.Retry = true ∧
      (sendLoop net appKey body lastErr attempt fuel).2.length = fuel := by
  intro fuel
  induction fuel with
  | zero => intro attempt lastErr _; simp [sendLoop]
  | succ m ih =>
    intro attempt lastErr hall
    have h0 := hall attempt (Nat.le_refl _) (by omega)
    simp only [sendLoop, h0.1, h0.2, Bool.false_eq_true, reduceIte, if_neg]
    have := ih (attempt + 1) (doSend appKey body (net attempt)).Message
      (fun i h1 h2 => hall i (by omega) (by omega))
    simpa using this

theorem sendLoop_bodies (net : Nat → HttpOutcome) (appKey body : String) :
    ∀ (fuel attempt : Nat) (lastErr : String) (b : String),
      b ∈ (sendLoop net appKey body lastErr attempt fuel).2 → b = body := by
  intro fuel
  induction fuel with
  | zero => intro attempt lastErr b h; simp [sendLoop] at h
  | succ m ih =>
    intro attempt lastErr b h
    simp only [sendLoop] at h
    split at h
    · simpa using h
    · split at h
      · simpa using h
      · rcases List.mem_cons.mp h with h1 | h2
        · exact h1
        · exact ih (attempt + 1) _ b h2

/-! ## Claims C2, C3, C4, C10 -/

/-- Claim C2: for every single delivery attempt, a response with status in
[200,300) is a success; a transport failure with no response is a retryable
failure; a response with status ≥ 500 is a retryable failure; any other
non-2xx response is a non-retryable failure. -/
theorem doSend_classification (appKey body : String) :
    (∀ status respBody, 200 ≤ status → status < 300 →
      (doSend appKey body (.response status respBody)).Success = true) ∧
    (∀ msg, (doSend appKey body (.transportError msg)).Success = false ∧
      (doSend appKey body (.transportError msg)).Retry = true) ∧
    (∀ status respBody, 500 ≤ status →
      (doSend appKey body (.response status respBody)).Success = false ∧
      (doSend appKey body (.response status respBody)).Retry = true) ∧
    (∀ status respBody, ¬(200 ≤ status ∧ status < 300) → status < 500 →
      (doSend appKey body (.response status respBody)).Success = false ∧
      (doSend appKey body (.response status respBody)).Retry = false) := by
  refine ⟨?_, ?_, ?_, ?_⟩
  · intro status respBody h1 h2
    simp [doSend, h1, h2]
  · intro msg
    simp [doSend]
  · intro status respBody h
    have hn : ¬(200 ≤ status ∧ status < 300) := by omega
    simp [doSend, hn, h]
  · intro status respBody hn h5
    have hn5 : ¬500 ≤ status := by omega
    simp [doSend, hn, hn5]

/-- Retry classification at concrete attempts: 200 succeeds, a refused
connection and a 500 are retryable, a 400 is not. -/
theorem doSend_classification_witness :
    (doSend "k1" "b" (.response 200 "ok")).Success = true ∧
    (doSend "k1" "b" (.transportError "connection refused")).Retry = true ∧
    (doSend "k1" "b" (.response 500 "boom")).Retry = true ∧
    (doSend "k1" "b" (.response 400 "bad")).Retry = false :=
  ⟨(doSend_classification "k1" "b").1 200 "ok" (by decide) (by decide),
   ((doSend_classification "k1" "b").2.1 "connection refused").2,
   ((doSend_classification "k1" "b").2.2.1 500 "boom" (by decide)).2,
   ((doSend_classification "k1" "b").2.2.2 400 "bad" (by decide) (by decide)).2⟩

/-- Claim C3: with a known tenant key and successful encryption, `Send`
performs at most `retryAttempts` HTTP attempts; every attempt before the
last is a retryable failure (it stops at the first success or first
non-retryable outcome, and when it stops early the last attempt was such a
decisive one); and if every attempt up to the ceiling fails retryably, the
result is `{success := false, retryable := true}` after exactly the ceiling
number of attempts. -/
theorem Send_retry_ceiling (retryAttempts : Nat) (cfg : Config)
    (gcmSeal : List Nat → List Nat → List Nat → List Nat)
    (nonce : List Nat) (keyDate : String) (net : Nat → HttpOutcome)
    (appKey data : String) (app : AppConfig) (payload : EncryptedPayload)
    (hlookup : cfg.GetAppByKey appKey = some app)
    (henc : EncryptPayload gcmSeal nonce keyDate data app.MasterSecret appKey = .ok payload) :
    (Send retryAttempts cfg gcmSeal nonce keyDate net appKey data).2.length ≤ retryAttempts ∧
    (∀ j, j + 1 < (Send retryAttempts cfg gcmSeal nonce keyDate net appKey data).2.length →
      (doSend appKey (encodeEnvelope payload) (net (1 + j))).Success = false ∧
      (doSend appKey (encodeEnvelope payload) (net (1 + j))).Retry = true) ∧
    ((Send retryAttempts cfg gcmSeal nonce keyDate net appKey data).2.length < retryAttempts →
      1 ≤ (Send retryAttempts cfg gcmSeal nonce keyDate net appKey data).2.length ∧
      ((doSend appKey (encodeEnvelope payload)
         (net ((Send retryAttempts cfg gcmSeal nonce keyDate net appKey data).2.length))).Success = true ∨
       (doSend appKey (encodeEnvelope payload)
         (net ((Send retryAttempts cfg gcmSeal nonce keyDate net appKey data).2.length))).Retry = false)) ∧
    ((∀ i, 1 ≤ i → i ≤ retryAttempts →
        (doSend appKey (encodeEnvelope payload) (net i)).Success = false ∧
        (doSend appKey (encodeEnvelope payload) (net i)).Retry = true) →
      (Send retryAttempts cfg gcmSeal nonce keyDate net appKey data).1.Success = false ∧
      (Send retryAttempts cfg gcmSeal nonce keyDate net appKey data).1.Retry = true ∧
      (Send retryAttempts cfg gcmSeal nonce keyDate net appKey data).2.length = retryAttempts) := by
  have hsend : Send retryAttempts cfg gcmSeal nonce keyDate net appKey data =
      sendLoop net appKey (encodeEnvelope payload) "" 1 retryAttempts := by
    simp [Send, hlookup, henc]
  rw [hsend]
  refine ⟨sendLoop_trace_length net appKey _ retryAttempts 1 "", ?_, ?_, ?_⟩
  · intro j hj
    exact sendLoop_prefix_retryable net appKey _ retryAttempts 1 "" j hj
  · intro hlt
    have := sendLoop_stop_reason net appKey (encodeEnvelope payload) retryAttempts 1 "" hlt
    simpa [Nat.add_comm 1, Nat.add_sub_cancel] using this
  · intro hall
    exact sendLoop_exhaust net appKey _ retryAttempts 1 ""
      (fun i h1 h2 => hall i h1 (by omega))

/-- A run in which every attempt returns 500: the ceiling of three attempts
is consumed and the outcome is a retryable failure. -/
theorem Send_retry_ceiling_witness :
    Config.GetAppByKey ⟨[⟨"app1", "k1", ""⟩], []⟩ "k1" = some ⟨"app1", "k1", ""⟩ ∧
    EncryptPayload (fun _ _ p => p) [] "2024-01-01" "d" "" "k1" =
      .ok ⟨true, "2024-01-01", 1, encodeBase64 [], encodeBase64 (strBytes "d")⟩ ∧
    (Send 3 ⟨[⟨"app1", "k1", ""⟩], []⟩ (fun _ _ p => p) [] "2024-01-01"
      (fun _ => .response 500 "boom") "k1" "d").2.length ≤ 3 :=
  ⟨by decide, by rfl,
   (Send_retry_ceiling 3 ⟨[⟨"app1", "k1", ""⟩], []⟩ (fun _ _ p => p) [] "2024-01-01"
      (fun _ => .response 500 "boom") "k1" "d" ⟨"app1", "k1", ""⟩
      ⟨true, "2024-01-01", 1, encodeBase64 [], encodeBase64 (strBytes "d")⟩
      (by decide) (by rfl)).1⟩

/-- Claim C4: an unknown tenant key, or any failure of the encryption step,
makes `Send` return `{success := false, retryable := false}` with an empty
attempt trace — no HTTP delivery attempt is performed. -/
theorem Send_config_failures (retryAttempts : Nat) (cfg : Config)
    (gcmSeal : List Nat → List Nat → List Nat → List Nat)
    (nonce : List Nat) (keyDate : String) (net : Nat → HttpOutcome)
    (appKey data : String) :
    (cfg.GetAppByKey appKey = none →
      Send retryAttempts cfg gcmSeal nonce keyDate net appKey data =
        (⟨false, "unknown app_key: " ++ appKey, false⟩, [])) ∧
    (∀ app e, cfg.GetAppByKey appKey = some app →
      EncryptPayload gcmSeal nonce keyDate data app.MasterSecret appKey = .error e →
      Send retryAttempts cfg gcmSeal nonce keyDate net appKey data =
        (⟨false, "encryption failed: " ++ e, false⟩, [])) := by
  constructor
  · intro h
    simp [Send, h]
  · intro app e h1 h2
    simp [Send, h1, h2]

/-- An unknown key and an undecodable secret each produce a non-retryable
failure with zero attempts. -/
theorem Send_config_failures_witness :
    Config.GetAppByKey ⟨[], []⟩ "k1" = none ∧
    Send 3 ⟨[], []⟩ (fun _ _ p => p) [] "2024-01-01" (fun _ => .response 200 "ok") "k1" "d" =
      (⟨false, "unknown app_key: k1", false⟩, []) ∧
    Config.GetAppByKey ⟨[], [("k2", ⟨"app2", "k2", "!"⟩)]⟩ "k2" = some ⟨"app2", "k2", "!"⟩ ∧
    EncryptPayload (fun _ _ p => p) [] "2024-01-01" "d" "!" "k2" =
      .error "failed to decode master secret" ∧
    Send 3 ⟨[], [("k2", ⟨"app2", "k2", "!"⟩)]⟩ (fun _ _ p => p) [] "2024-01-01"
        (fun _ => .response 200 "ok") "k2" "d" =
      (⟨false, "encryption failed: failed to decode master secret", false⟩, []) :=
  ⟨by decide,
   by
     have := (Send_config_failures 3 ⟨[], []⟩ (fun _ _ p => p) [] "2024-01-01"
       (fun _ => .response 200 "ok") "k1" "d").1 (by decide)
     simpa using this,
   by decide, by rfl,
   by
     have := (Send_config_failures 3 ⟨[], [("k2", ⟨"app2", "k2", "!"⟩)]⟩ (fun _ _ p => p)
       [] "2024-01-01" (fun _ => .response 200 "ok") "k2" "d").2 ⟨"app2", "k2", "!"⟩
       "failed to decode master secret" (by decide) (by rfl)
     simpa using this⟩

/-- Claim C10: under a known key and successful encryption, the envelope is
built exactly once, before the first attempt: its key date is the single
date sampled and its nonce the single nonce drawn, and every request body
posted by any attempt of the same `Send` call is the serialization of that
one envelope. -/
theorem Send_single_encryption (retryAttempts : Nat) (cfg : Config)
    (gcmSeal : List Nat → List Nat → List Nat → List Nat)
    (nonce : List Nat) (keyDate : String) (net : Nat → HttpOutcome)
    (appKey data : String) (app : AppConfig) (payload : EncryptedPayload)
    (hlookup : cfg.GetAppByKey appKey = some app)
    (henc : EncryptPayload gcmSeal nonce keyDate data app.MasterSecret appKey = .ok payload) :
    payload.KeyDate = keyDate ∧ payload.Nonce = encodeBase64 nonce ∧
    ∀ b ∈ (Send retryAttempts cfg gcmSeal nonce keyDate net appKey data).2,
      b = encodeEnvelope payload := by
  have hfields : payload.KeyDate = keyDate ∧ payload.Nonce = encodeBase64 nonce := by
    cases hd : decodeBase64 app.MasterSecret with
    | none => simp [EncryptPayload, hd] at henc
    | some secret =>
      simp only [EncryptPayload, hd] at henc
      cases henc
      exact ⟨rfl, rfl⟩
  refine ⟨hfields.1, hfields.2, ?_⟩
  have hsend : Send retryAttempts cfg gcmSeal nonce keyDate net appKey data =
      sendLoop net appKey (encodeEnvelope payload) "" 1 retryAttempts := by
    simp [Send, hlookup, henc]
  rw [hsend]
  exact fun b hb => sendLoop_bodies net appKey _ retryAttempts 1 "" b hb

/-- The first body posted by a three-attempt run is the serialization of
the one envelope built before the loop. -/
theorem Send_single_encryption_witness :
    (Send 3 ⟨[⟨"app1", "k1", ""⟩], []⟩ (fun _ _ p => p) [] "2024-01-01"
        (fun _ => .response 500 "boom") "k1" "d").2.getD 0 "" =
      encodeEnvelope ⟨true, "2024-01-01", 1, encodeBase64 [], encodeBase64 (strBytes "d")⟩ :=
  (Send_single_encryption 3 ⟨[⟨"app1", "k1", ""⟩], []⟩ (fun _ _ p => p) [] "2024-01-01"
    (fun _ => .response 500 "boom") "k1" "d" ⟨"app1", "k1", ""⟩
    ⟨true, "2024-01-01", 1, encodeBase64 [], encodeBase64 (strBytes "d")⟩
    (by decide) (by rfl)).2.2 _ (by decide)

/-! ## The persistent queue (`internal/queue`)

The SQLite table is modelled by its rows in insertion order plus the
AUTOINCREMENT counter; every operation runs under the queue mutex, so the
store is deterministic state-passing.  `created_at` (`DEFAULT
CURRENT_TIMESTAMP`) is the explicit `now` argument of `Enqueue`.  Payloads
are stored as their JSON serialization, which is how the Go code writes the
`data` column. -/

/-- A queued message (`queue.Message`). -/
structure Message where
  ID : Nat
  AppKey : String
  Data : String
  CreatedAt : Nat
  Attempts : Nat
deriving DecidableEq

/-- The queue store: rows in insertion order, the next AUTOINCREMENT id, and
the configured capacity (`maxSize`). -/
structure Queue where
  messages : List Message
  nextId : Nat
  maxSize : Nat
deriving DecidableEq

/-- Operation `Enqueue`: fail when `COUNT(*) >= maxSize`, otherwise insert a fresh row
with a new id and a zero attempt counter. -/
def Queue.Enqueue (q : Queue) (appKey data : String) (now : Nat) :
    Except String (Nat × Queue) :=
  if q.maxSize ≤ q.messages.length then
    .error ("queue is full (max: " ++ toString q.maxSize ++ ")")
  else
    .ok (q.nextId, ⟨q.messages ++ [⟨q.nextId, appKey, data, now, 0⟩], q.nextId + 1, q.maxSize⟩)

/-- Operation `Dequeue`: `SELECT … ORDER BY id ASC LIMIT 1` — the row with the least
id, or nothing; the table is not modified. -/
def Queue.Dequeue (q : Queue) : Option Message :=
  q.messages.argmin Message.ID

/-- Operation `Remove`: `DELETE FROM messages WHERE id = ?` (idempotent). -/
def Queue.Remove (q : Queue) (id : Nat) : Queue :=
  ⟨q.messages.filter (fun m => m.ID ≠ id), q.nextId, q.maxSize⟩

/-- Operation `IncrementAttempts`: `UPDATE messages SET attempts = attempts + 1 WHERE
id = ?`. -/
def Queue.IncrementAttempts (q : Queue) (id : Nat) : Queue :=
  ⟨q.messages.map (fun m =>
     if m.ID = id then ⟨m.ID, m.AppKey, m.Data, m.CreatedAt, m.Attempts + 1⟩ else m),
   q.nextId, q.maxSize⟩

/-- Operation `Size`: `SELECT COUNT(*)`. -/
def Queue.Size (q : Queue) : Nat := q.messages.length

/-- The store invariant every reachable queue state satisfies: the size is
within capacity, row ids strictly increase in insertion order, and all ids
are below the AUTOINCREMENT counter. -/
def Queue.WF (q : Queue) : Prop :=
  q.Size ≤ q.maxSize ∧
  q.messages.Pairwise (fun a b => a.ID < b.ID) ∧
  ∀ m ∈ q.messages, m.ID < q.nextId

/-- The empty store is well-formed. -/
theorem Queue.WF_empty (cap : Nat) : (⟨[], 1, cap⟩ : Queue).WF := by
  refine ⟨by simp [Queue.Size], by simp, by simp⟩

/-- A successful `Enqueue` preserves the invariant. -/
theorem Queue.Enqueue_WF (q : Queue) (appKey data : String) (now id : Nat)
    (q' : Queue) (hwf : q.WF) (h : q.Enqueue appKey data now = .ok (id, q')) :
    q'.WF := by
  obtain ⟨hsz, hord, hid⟩ := hwf
  simp only [Queue.Enqueue] at h
  split at h
  · cases h
  · cases h
    refine ⟨?_, ?_, ?_⟩
    · simp only [Queue.Size, List.length_append, List.length_cons, List.length_nil]
      simp only [Queue.Size] at hsz
      omega
    · rw [List.pairwise_append]
      exact ⟨hord, by simp, fun a ha b hb => by
        simp at hb; subst hb; exact hid a ha⟩
    · intro m hm
      rcases List.mem_append.mp hm with h1 | h2
      · exact Nat.lt_succ_of_lt (hid m h1)
      · simp at h2; subst h2; exact Nat.lt_succ_self _

/-- Operation `Remove` preserves the invariant. -/
theorem Queue.Remove_WF (q : Queue) (id : Nat) (hwf : q.WF) : (q.Remove id).WF := by
  obtain ⟨hsz, hord, hid⟩ := hwf
  refine ⟨?_, ?_, ?_⟩
  · simp only [Queue.Size, Queue.Remove] at hsz ⊢
    exact le_trans (List.length_filter_le _ _) hsz
  · exact List.Pairwise.sublist (List.filter_sublist _) hord
  · intro m hm
    exact hid m (List.mem_of_mem_filter hm)

/-- Operation `IncrementAttempts` preserves the invariant. -/
theorem Queue.IncrementAttempts_WF (q : Queue) (id : Nat) (hwf : q.WF) :
    (q.IncrementAttempts id).WF := by
  obtain ⟨hsz, hord, hid⟩ := hwf
  refine ⟨?_, ?_, ?_⟩
  · simpa [Queue.Size, Queue.IncrementAttempts] using hsz
  · rw [Queue.IncrementAttempts, List.pairwise_map]
    refine hord.imp_of_mem ?_
    intro a b _ _ hab
    split <;> split <;> simpa using hab
  · intro m hm
    simp only [Queue.IncrementAttempts, List.mem_map] at hm
    obtain ⟨m0, hm0, hEq⟩ := hm
    have : m.ID = m0.ID := by
      subst hEq; split <;> simp
    rw [this]; exact hid m0 hm0

/-! ## Claims C5 and C6 -/

/-- Claim C5: on any within-capacity state, `Enqueue` fails with the
queue-full error iff the size at the instant of the check equals the
configured capacity, and a successful `Enqueue` never raises the size above
the capacity. -/
theorem Enqueue_capacity (q : Queue) (appKey data : String) (now : Nat)
    (hwf : q.WF) :
    (q.Enqueue appKey data now =
        .error ("queue is full (max: " ++ toString q.maxSize ++ ")") ↔
      q.Size = q.maxSize) ∧
    (∀ id q', q.Enqueue appKey data now = .ok (id, q') →
      q'.Size ≤ q.maxSize) := by
  obtain ⟨hsz, -, -⟩ := hwf
  constructor
  · constructor
    · intro h
      simp only [Queue.Enqueue] at h
      split at h
      · simp only [Queue.Size] at hsz ⊢
        omega
      · cases h
    · intro h
      simp only [Queue.Size] at h
      simp [Queue.Enqueue, h]
  · intro id q' h
    simp only [Queue.Enqueue] at h
    split at h
    · cases h
    · cases h
      simp only [Queue.Size, List.length_append, List.length_cons, List.length_nil]
      omega

/-- A one-slot store holding one row rejects a further `Enqueue` with the
queue-full error. -/
theorem Enqueue_capacity_witness :
    (⟨[⟨1, "k1", "d", 0, 0⟩], 2, 1⟩ : Queue).Enqueue "k1" "d2" 5 =
      .error "queue is full (max: 1)" :=
  (Enqueue_capacity ⟨[⟨1, "k1", "d", 0, 0⟩], 2, 1⟩ "k1" "d2" 5
    ⟨by decide, by decide, by decide⟩).1.mpr (by decide)

/-- Claim C6: on any well-formed state, `Dequeue` is empty iff the store is
empty; otherwise it returns a stored message of least id while leaving the
state unchanged (it is a pure read); and after `Remove` of that id every
remaining row — hence whatever a later `Dequeue` returns — has a strictly
larger id, so repeated `Dequeue`/`Remove` walks ids in ascending insertion
order. -/
theorem Dequeue_fifo (q : Queue) (hwf : q.WF) :
    (q.Dequeue = none ↔ q.messages = []) ∧
    (∀ m, q.Dequeue = some m →
      m ∈ q.messages ∧ ∀ m' ∈ q.messages, m.ID ≤ m'.ID) ∧
    (∀ m, q.Dequeue = some m → q.messages.head? = some m) ∧
    (∀ m, q.Dequeue = some m →
      ∀ m' ∈ (q.Remove m.ID).messages, m.ID < m'.ID) := by
  obtain ⟨-, hord, -⟩ := hwf
  refine ⟨List.argmin_eq_none, ?_, ?_, ?_⟩
  · intro m hm
    have hmem : m ∈ q.messages.argmin Message.ID := by
      simpa [Option.mem_def] using hm
    exact ⟨List.argmin_mem hmem, fun m' hm' => List.le_of_mem_argmin hm' hmem⟩
  · intro m hm
    have hmem : m ∈ q.messages.argmin Message.ID := by
      simpa [Option.mem_def] using hm
    have hmin : ∀ m' ∈ q.messages, m.ID ≤ m'.ID :=
      fun m' hm' => List.le_of_mem_argmin hm' hmem
    have hm_mem : m ∈ q.messages := List.argmin_mem hmem
    cases hq : q.messages with
    | nil => rw [hq] at hm_mem; cases hm_mem
    | cons a tl =>
      rw [hq] at hm_mem hmin hord
      rcases List.mem_cons.mp hm_mem with h1 | h2
      · simp [h1]
      · have h1 : a.ID < m.ID := (List.pairwise_cons.mp hord).1 m h2
        have h2 : m.ID ≤ a.ID := hmin a (List.mem_cons_self a tl)
        omega
  · intro m hm m' hm'
    have hmem : m ∈ q.messages.argmin Message.ID := by
      simpa [Option.mem_def] using hm
    simp only [Queue.Remove, List.mem_filter] at hm'
    have hle : m.ID ≤ m'.ID :=
      List.le_of_mem_argmin hm'.1 hmem
    have hne : m'.ID ≠ m.ID := by simpa using hm'.2
    omega

/-- On a two-row store, `Dequeue` returns the row with id 1, the least id. -/
theorem Dequeue_fifo_witness :
    (⟨1, "k1", "a", 0, 0⟩ : Message) ∈
      (⟨[⟨1, "k1", "a", 0, 0⟩, ⟨2, "k1", "b", 0, 0⟩], 3, 10⟩ : Queue).messages ∧
    ∀ m' ∈ (⟨[⟨1, "k1", "a", 0, 0⟩, ⟨2, "k1", "b", 0, 0⟩], 3, 10⟩ : Queue).messages,
      (⟨1, "k1", "a", 0, 0⟩ : Message).ID ≤ m'.ID :=
  (Dequeue_fifo ⟨[⟨1, "k1", "a", 0, 0⟩, ⟨2, "k1", "b", 0, 0⟩], 3, 10⟩
    ⟨by decide, by decide, by decide⟩).2.1 ⟨1, "k1", "a", 0, 0⟩ (by decide)

/-! ## The drain cycle (`processQueue`, main.go lines 107–142)

One tick of the background processor: repeatedly peek the oldest message,
try to send it, and act on the outcome.  The delivery client is the oracle
`send : Message → SendResult` (each message is attempted at most once per
cycle, so a per-message oracle is exact); `retryAttempts` is
`cfg.Nexus.RetryAttempts`.  The loop terminates because every continuing
branch removes a row, so the initial row count serves as structural fuel. -/

/-- What the cycle did with one message: removed after success, removed as a
permanent drop, or attempts-incremented and the cycle stopped. -/
inductive ProcAction where
  | sent (id : Nat)
  | dropped (id : Nat)
  | deferred (id : Nat)
deriving DecidableEq

/-- The drain loop body of `processQueue`, with explicit fuel. -/
def processQueueAux (retryAttempts : Nat) (send : Message → SendResult) :
    Nat → Queue → Queue × List ProcAction
  | 0, q => (q, [])
  | fuel + 1, q =>
    match q.Dequeue with
    | none => (q, [])
    | some msg =>
      let result := send msg
      if result.Success then
        let r := processQueueAux retryAttempts send fuel (q.Remove msg.ID)
        (r.1, .sent msg.ID :: r.2)
      else if result.Retry = false ∨ retryAttempts * 3 ≤ msg.Attempts then
        let r := processQueueAux retryAttempts send fuel (q.Remove msg.ID)
        (r.1, .dropped msg.ID :: r.2)
      else
        (q.IncrementAttempts msg.ID, [.deferred msg.ID])

/-- One drain cycle of `processQueue`: run the loop body starting from the
current row count, which bounds the number of iterations. -/
def processQueue (retryAttempts : Nat) (send : Message → SendResult) (q : Queue) :
    Queue × List ProcAction :=
  processQueueAux retryAttempts send q.Size q

/-- The drain loop never reintroduces an id that is absent from the store:
its operations only delete rows or bump attempt counters. -/
theorem processQueueAux_no_id (retryAttempts : Nat) (send : Message → SendResult) :
    ∀ (fuel : Nat) (q : Queue) (i : Nat),
      (∀ m ∈ q.messages, m.ID ≠ i) →
      ∀ m ∈ (processQueueAux retryAttempts send fuel q).1.messages, m.ID ≠ i := by
  intro fuel
  induction fuel with
  | zero => intro q i h m hm; exact h m hm
  | succ n ih =>
    intro q i h m hm
    simp only [processQueueAux] at hm
    cases hdq : q.Dequeue with
    | none => rw [hdq] at hm; exact h m hm
    | some msg =>
      rw [hdq] at hm
      have hrem : ∀ m' ∈ (q.Remove msg.ID).messages, m'.ID ≠ i :=
        fun m' hm' => h m' (List.mem_of_mem_filter hm')
      by_cases hs : (send msg).Success
      · simp only [hs, reduceIte] at hm
        exact ih (q.Remove msg.ID) i hrem m hm
      · by_cases hd : (send msg).Retry = false ∨ retryAttempts * 3 ≤ msg.Attempts
        · simp only [hs, hd, reduceIte, Bool.false_eq_true] at hm
          exact ih (q.Remove msg.ID) i hrem m hm
        · simp only [hs, hd, reduceIte, Bool.false_eq_true] at hm
          simp only [Queue.IncrementAttempts, List.mem_map] at hm
          obtain ⟨m0, hm0, hEq⟩ := hm
          have : m.ID = m0.ID := by subst hEq; split <;> simp
          rw [this]; exact h m0 hm0

/-- A non-empty store gives the cycle at least one unit of fuel. -/
theorem Size_pos_of_Dequeue (q : Queue) (msg : Message) (hdq : q.Dequeue = some msg) :
    ∃ n, q.Size = n + 1 := by
  have hne : q.messages ≠ [] := by
    intro h
    rw [Queue.Dequeue, h] at hdq
    simp [List.argmin_nil] at hdq
  cases hq : q.messages with
  | nil => exact absurd hq hne
  | cons a tl => exact ⟨tl.length, by simp [Queue.Size, hq]⟩

/-! ## Claims C7 and C8 -/

/-- Claim C7: when delivery of the oldest queued message fails with a
non-retryable outcome, or fails while its attempts counter has reached
`retryAttempts × 3`, the drain cycle records it as dropped and the message
is removed: no row with its id survives the cycle, whether or not the
failure was still retryable. -/
theorem processQueue_permanent_drop (retryAttempts : Nat)
    (send : Message → SendResult) (q : Queue) (msg : Message)
    (hdq : q.Dequeue = some msg)
    (hfail : (send msg).Success = false)
    (hdrop : (send msg).Retry = false ∨ retryAttempts * 3 ≤ msg.Attempts) :
    (processQueue retryAttempts send q).2.head? = some (.dropped msg.ID) ∧
    ∀ m ∈ (processQueue retryAttempts send q).1.messages, m.ID ≠ msg.ID := by
  obtain ⟨n, hn⟩ := Size_pos_of_Dequeue q msg hdq
  have hstep : processQueue retryAttempts send q =
      ((processQueueAux retryAttempts send n (q.Remove msg.ID)).1,
       .dropped msg.ID :: (processQueueAux retryAttempts send n (q.Remove msg.ID)).2) := by
    rw [processQueue, hn]
    simp only [processQueueAux, hdq, hfail, Bool.false_eq_true, reduceIte, hdrop, if_pos]
  rw [hstep]
  refine ⟨rfl, ?_⟩
  exact processQueueAux_no_id retryAttempts send n (q.Remove msg.ID) msg.ID
    (fun m hm => by simpa using (List.mem_filter.mp hm).2)

/-- A message at the hard cap (attempts = retryAttempts × 3 = 9) whose
delivery still fails retryably is dropped by the next cycle. -/
theorem processQueue_permanent_drop_witness :
    (processQueue 3 (fun _ => ⟨false, "server error 500: x", true⟩)
        ⟨[⟨1, "k1", "d", 0, 9⟩], 2, 10⟩).2.head? =
      some (.dropped 1) ∧
    ∀ m ∈ (processQueue 3 (fun _ => ⟨false, "server error 500: x", true⟩)
        ⟨[⟨1, "k1", "d", 0, 9⟩], 2, 10⟩).1.messages, m.ID ≠ 1 :=
  processQueue_permanent_drop 3 (fun _ => ⟨false, "server error 500: x", true⟩)
    ⟨[⟨1, "k1", "d", 0, 9⟩], 2, 10⟩ ⟨1, "k1", "d", 0, 9⟩
    (by decide) (by decide) (Or.inr (by decide))

/-- Claim C8: when delivery of the oldest queued message fails retryably
below the hard cap, the cycle increments that message's attempts counter and
stops at once: the final state is exactly the attempts-incremented store and
the action list holds that single deferral, so no younger message is
attempted until the next tick. -/
theorem processQueue_head_of_line (retryAttempts : Nat)
    (send : Message → SendResult) (q : Queue) (msg : Message)
    (hdq : q.Dequeue = some msg)
    (hfail : (send msg).Success = false)
    (hretry : (send msg).Retry = true)
    (hcap : msg.Attempts < retryAttempts * 3) :
    processQueue retryAttempts send q =
      (q.IncrementAttempts msg.ID, [.deferred msg.ID]) := by
  obtain ⟨n, hn⟩ := Size_pos_of_Dequeue q msg hdq
  have hnd : ¬((send msg).Retry = false ∨ retryAttempts * 3 ≤ msg.Attempts) := by
    rintro (h | h)
    · rw [hretry] at h; cases h
    · omega
  rw [processQueue, hn]
  simp only [processQueueAux, hdq, hfail, Bool.false_eq_true, reduceIte, hnd, if_neg]

/-- A transient failure of the oldest of two messages increments its counter
and ends the cycle with the younger message untouched and unattempted. -/
theorem processQueue_head_of_line_witness :
    processQueue 3 (fun _ => ⟨false, "request failed: refused", true⟩)
        ⟨[⟨1, "k1", "a", 0, 0⟩, ⟨2, "k1", "b", 0, 0⟩], 3, 10⟩ =
      ((⟨[⟨1, "k1", "a", 0, 0⟩, ⟨2, "k1", "b", 0, 0⟩], 3, 10⟩ : Queue).IncrementAttempts 1,
       [.deferred 1]) :=
  processQueue_head_of_line 3 (fun _ => ⟨false, "request failed: refused", true⟩)
    ⟨[⟨1, "k1", "a", 0, 0⟩, ⟨2, "k1", "b", 0, 0⟩], 3, 10⟩ ⟨1, "k1", "a", 0, 0⟩
    (by decide) (by decide) (by decide) (by decide)

end NexusAgent
